import Mathlib

/-! Verification of the client-side scripts of the nurse shift-scheduling app.

Shallow embedding of `ajax-helpers.js` and `restricciones.js`: the polling
helper `AjaxHelper.poll` and its instantiation `monitorizarEjecucion`, the
cookie / CSRF-token lookup, and the constraint-builder serialization and
validation functions.  JavaScript strings are modeled as `String` (or
`List Char` where character-level reasoning is needed), JS numbers as `ℚ`
with `Option ℚ` marking `NaN`, and the DOM state read or written by each
function as an explicit structure.
-/

namespace Turnos

/-- A server response as seen by the polling callback: a JSON object with an
`estado` field; `payload` stands for the rest of the object, so that distinct
responses with equal `estado` can be told apart. -/
structure Resp where
  estado : String
  payload : String
deriving DecidableEq, Repr

/-- Outcome of the `await this.get(url)` of one polling attempt: a parsed
response, or a rejected fetch (network failure or non-OK status, both of which
make `AjaxHelper.get` throw). -/
inductive FetchResult where
  | ok (data : Resp)
  | err
deriving DecidableEq, Repr

/-- One timer fire of `AjaxHelper.poll`, i.e. one GET request issued.
`callbackRun a d c acts` records that attempt `a` received data `d`, invoked
the callback which returned `shouldContinue = c` after performing the
observable actions `acts`; `fetchError a` records that attempt `a`'s fetch
rejected (the error is logged, the callback is not invoked). -/
inductive PollEvent (α : Type) where
  | callbackRun (attempt : Nat) (data : Resp) (shouldContinue : Bool) (actions : α)
  | fetchError (attempt : Nat)
deriving DecidableEq, Repr

/-- The body of `AjaxHelper.poll`'s `setInterval` closure, iterated.  The
endpoint is modeled by `resp : Nat → FetchResult` (attempt `i + 1` reads
`resp i`); the callback returns `shouldContinue` together with a record `α`
of its observable actions.  Each recursive step is one timer fire: increment
`attempts`, fetch, on error clear the interval after logging (no callback
call, nothing re-thrown), otherwise run the callback and clear the interval
when it returned a falsy value or `attempts >= maxAttempts`. -/
def pollLoop {α : Type} (resp : Nat → FetchResult) (cb : Resp → Nat → Bool × α)
    (maxAttempts : Nat) (attempts : Nat) : List (PollEvent α) :=
  let a := attempts + 1
  match resp attempts with
  | .err => [.fetchError a]
  | .ok d =>
    let r := cb d a
    if r.1 = false ∨ maxAttempts ≤ a then [.callbackRun a d r.1 r.2]
    else .callbackRun a d r.1 r.2 :: pollLoop resp cb maxAttempts a
termination_by maxAttempts - attempts
decreasing_by omega

/-- Model of `AjaxHelper.poll(url, callback, interval, maxAttempts)`.  The url is
absorbed into `resp`, which models the endpoint's behavior; `interval` (JS
default 5000) has no semantic role in this untimed model and is carried for
signature fidelity only; `maxAttempts` defaults to 60 in JS.  The result is
the trace of timer fires, one per GET request issued, in order; the JS
return value (the timer id) carries no further observable content. -/
def poll {α : Type} (resp : Nat → FetchResult) (cb : Resp → Nat → Bool × α)
    (_interval : Nat) (maxAttempts : Nat) : List (PollEvent α) :=
  pollLoop resp cb maxAttempts 0

/-- An invocation of one of the two user callbacks of `monitorizarEjecucion`. -/
inductive MonAction where
  | update (d : Resp)
  | complete (d : Resp)
deriving DecidableEq, Repr

/-- The anonymous callback `monitorizarEjecucion` passes to `AjaxHelper.poll`:
it always invokes `onUpdate(data)`; when `data.estado` is `COMPLETADA` or
`ERROR` it additionally invokes `onComplete(data)` and returns `false`
(stop polling), otherwise it returns `true`.  The invoked user callbacks are
recorded in order as `MonAction`s. -/
def monitorizarCallback (data : Resp) (_attempts : Nat) : Bool × List MonAction :=
  if data.estado = "COMPLETADA" ∨ data.estado = "ERROR" then
    (false, [.update data, .complete data])
  else
    (true, [.update data])

/-- Model of `monitorizarEjecucion(ejecucionId, onUpdate, onComplete)`: polls the
execution-status endpoint (modeled by `resp`; the `ejecucionId` only selects
the url) with interval 5000 ms and cap 120 attempts. -/
def monitorizarEjecucion (resp : Nat → FetchResult) : List (PollEvent (List MonAction)) :=
  poll resp monitorizarCallback 5000 120

/-- The data passed to `onUpdate`, across a trace, in invocation order. -/
def onUpdates (tr : List (PollEvent (List MonAction))) : List Resp :=
  tr.flatMap fun e =>
    match e with
    | .callbackRun _ _ _ acts =>
      acts.filterMap fun a => match a with | .update d => some d | _ => none
    | .fetchError _ => []

/-- The data passed to `onComplete`, across a trace, in invocation order. -/
def onCompletes (tr : List (PollEvent (List MonAction))) : List Resp :=
  tr.flatMap fun e =>
    match e with
    | .callbackRun _ _ _ acts =>
      acts.filterMap fun a => match a with | .complete d => some d | _ => none
    | .fetchError _ => []

/-! Cookie and CSRF-token lookup (`AjaxHelper.getCookie`, `getCSRFToken`).

These work at character granularity, so JS strings are modeled as `List Char`
here. -/

/-- A JavaScript string at character granularity. -/
abbrev JStr := List Char

/-- Accumulator loop of `String.prototype.split(sep)` for a one-character
separator. -/
def splitCharAux (sep : Char) : JStr → JStr → List JStr
  | [], acc => [acc.reverse]
  | c :: rest, acc =>
    if c = sep then acc.reverse :: splitCharAux sep rest []
    else splitCharAux sep rest (c :: acc)

/-- Model of `String.prototype.split(sep)`: split on every occurrence of `sep`,
keeping empty pieces (JS `split` on the empty string yields `[""]`). -/
def splitChar (sep : Char) (s : JStr) : List JStr :=
  splitCharAux sep s []

/-- Model of `document.cookie.split(';')`. -/
def splitSemicolon (s : JStr) : List JStr :=
  splitChar ';' s

/-- Model of `String.prototype.trim()`: strip leading and trailing whitespace. -/
def trimJS (s : JStr) : JStr :=
  ((s.dropWhile Char.isWhitespace).reverse.dropWhile Char.isWhitespace).reverse

/-- The `for`/`break` loop of `AjaxHelper.getCookie`: scan the split cookie
entries in order and return, for the first trimmed entry whose first
`name.length + 1` characters equal `name + '='`
(JS `cookie.substring(0, name.length + 1) === (name + '=')`), the rest of the
entry (`cookie.substring(name.length + 1)`) passed through `dec`, the model of
the `decodeURIComponent` builtin. -/
def getCookieLoop (dec : JStr → JStr) (name : JStr) : List JStr → Option JStr
  | [] => none
  | c :: rest =>
    let cookie := trimJS c
    if cookie.take (name.length + 1) = name ++ ['='] then
      some (dec (cookie.drop (name.length + 1)))
    else getCookieLoop dec name rest

/-- Model of `AjaxHelper.getCookie(name)` reading `cookieStr = document.cookie`;
`none` models `null` (returned when the cookie string is empty — the JS guard
`document.cookie && document.cookie !== ''` — or when no entry matches). -/
def getCookie (dec : JStr → JStr) (cookieStr name : JStr) : Option JStr :=
  if cookieStr ≠ [] then getCookieLoop dec name (splitSemicolon cookieStr)
  else none

/-- The document state read by `AjaxHelper.getCSRFToken`: the `value` of the
first `[name=csrfmiddlewaretoken]` element (`none` when absent), the `content`
of the `meta[name="csrf-token"]` tag (`none` when absent), and
`document.cookie`. -/
structure CsrfDom where
  formFieldVal : Option JStr
  metaContent : Option JStr
  cookieStr : JStr

/-- The JS disjunction `a || b` on a string-or-missing left operand: `b` when `a` is
`undefined`/`null` or the falsy empty string, else `a`. -/
def jsOrStr (a b : Option JStr) : Option JStr :=
  match a with
  | some s => if s = [] then b else some s
  | none => b

/-- The cookie name `'csrftoken'` used by `getCSRFToken`. -/
def csrftokenName : JStr :=
  "csrftoken".data

/-- Model of `AjaxHelper.getCSRFToken()`: form field value `||` meta content `||`
cookie lookup, with JS falsy-fallthrough semantics; `dec` models the
`decodeURIComponent` builtin used by the cookie lookup. -/
def getCSRFToken (dec : JStr → JStr) (dom : CsrfDom) : Option JStr :=
  jsOrStr dom.formFieldVal
    (jsOrStr dom.metaContent (getCookie dec dom.cookieStr csrftokenName))

/-- Predicate `startsWith p s`: `s` begins with `p` (the claim-side "starts exactly
with" notion, used to characterize the cookie-entry match test). -/
def startsWith (p s : JStr) : Bool :=
  decide (s.take p.length = p)

/-! Constraint builder (`restricciones.js`). -/

/-- A form input element as read by `serializarRestricciones`: its `name`
attribute, its `type` attribute (`"number"` inputs get their value
`parseFloat`d), and its string `value`. -/
structure Input where
  name : String
  type : String
  value : String
deriving DecidableEq, Repr

/-- Digit list to number, most significant digit first. -/
def digitsNat (ds : List Char) : Nat :=
  ds.foldl (fun acc c => acc * 10 + (c.toNat - '0'.toNat)) 0

/-- Model of the JS `parseFloat` builtin on the decimal fragment exercised
here: leading whitespace skipped, optional sign, integer digits, optional
`.`-separated fractional digits; `none` models `NaN` (no parsable numeric
prefix).  The parsed value `±(int.frac)` is assembled as the rational
`±(int·10^|frac| + frac) / 10^|frac|`.  Exponents, `Infinity` and float
rounding are not modeled — numbers are idealized as rationals. -/
def parseFloat (s : String) : Option ℚ :=
  let cs := s.data.dropWhile Char.isWhitespace
  let signRest : Bool × List Char :=
    match cs with
    | '-' :: r => (true, r)
    | '+' :: r => (false, r)
    | r => (false, r)
  let intPart := signRest.2.takeWhile Char.isDigit
  let rest := signRest.2.dropWhile Char.isDigit
  let fracPart :=
    match rest with
    | '.' :: r => r.takeWhile Char.isDigit
    | _ => []
  if intPart = [] ∧ fracPart = [] then none
  else
    let q : ℚ :=
      mkRat (digitsNat intPart * 10 ^ fracPart.length + digitsNat fracPart)
        (10 ^ fracPart.length)
    some (if signRest.1 then -q else q)

/-- A parameter value as stored by the serializer: `parseFloat` of a
`number` input's value (`none` models `NaN`), or the raw string otherwise. -/
inductive ParamVal where
  | num (v : Option ℚ)
  | str (s : String)
deriving DecidableEq, Repr

/-- Model of `input.name.split('_').pop()`: the last underscore-separated segment of
the name attribute (note: a parameter key that itself contains underscores is
truncated to its last segment by this). -/
def lastSegment (s : String) : String :=
  String.mk ((splitChar '_' s.data).getLastD [])

/-- The attribute-prefix selector test (`[name^="…"]`): `s` starts with `p`. -/
def strStartsWith (p s : String) : Bool :=
  decide (s.data.take p.data.length = p.data)

/-- The JS object property assignment in a string-keyed object literal: an
existing key is overwritten in place, a new key is appended (JS objects keep
string-key insertion order). -/
def objSet : List (String × ParamVal) → String → ParamVal → List (String × ParamVal)
  | [], k, v => [(k, v)]
  | (k', v') :: rest, k, v =>
    if k' = k then (k, v) :: rest else (k', v') :: objSet rest k v

/-- A rendered hard-constraint card (`.restriccion-dura`) as read by
`serializarRestricciones`: the value of its type select (`none` when no
`.restriccion-tipo-select` element is present), whether its first checkbox is
checked (the card template always renders exactly one checkbox), and its
named input elements. -/
structure DuraCard where
  tipoSelect : Option String
  activaChecked : Bool
  inputs : List Input
deriving DecidableEq, Repr

/-- A rendered soft-constraint card (`.restriccion-blanda`): the value of its
type select (`none` when absent), its checkbox state, and the raw value of
its `.restriccion-blanda-peso` number input (present in the template). -/
structure BlandaCard where
  tipoSelect : Option String
  activaChecked : Bool
  pesoValue : String
deriving DecidableEq, Repr

/-- A serialized hard constraint (an element of the `duras` array). -/
structure Restriccion where
  nombre : String
  activa : Bool
  parametros : List (String × ParamVal)
deriving DecidableEq, Repr

/-- A serialized soft constraint (an element of the `blandas` array). -/
structure RestriccionBlanda where
  nombre : String
  activa : Bool
  peso : Option ℚ
  parametros : List (String × ParamVal)
deriving DecidableEq, Repr

/-- The parameter-collection loop of `serializarRestricciones`: over the
card's inputs whose name starts with `restriccion_dura_param_`
(`querySelectorAll('[name^="restriccion_dura_param_"]')`), assign
`parametros[name.split('_').pop()] = type === 'number' ? parseFloat(value)
: value`. -/
def serializeDuraParams (inputs : List Input) : List (String × ParamVal) :=
  (inputs.filter (fun i => strStartsWith "restriccion_dura_param_" i.name)).foldl
    (fun m i =>
      objSet m (lastSegment i.name)
        (if i.type = "number" then .num (parseFloat i.value) else .str i.value))
    []

/-- One iteration of the `duras` serialization loop: skip the card when its
type select is missing or has the (falsy) empty value
(`if (!tipoSelect || !tipoSelect.value) return;`), otherwise emit
`{nombre, activa, parametros}`. -/
def serializeDura (card : DuraCard) : Option Restriccion :=
  match card.tipoSelect with
  | none => none
  | some t =>
    if t = "" then none
    else some { nombre := t, activa := card.activaChecked,
                parametros := serializeDuraParams card.inputs }

/-- One iteration of the `blandas` serialization loop: skip the card when its
type select is missing or empty, otherwise emit
`{nombre, activa, peso: parseFloat(pesoInput.value), parametros: {}}`. -/
def serializeBlanda (card : BlandaCard) : Option RestriccionBlanda :=
  match card.tipoSelect with
  | none => none
  | some t =>
    if t = "" then none
    else some { nombre := t, activa := card.activaChecked,
                peso := parseFloat card.pesoValue, parametros := [] }

/-- The constraint form as seen by the serializer: the `.restriccion-dura`
and `.restriccion-blanda` cards, in document order. -/
structure RestriccionesForm where
  duras : List DuraCard
  blandas : List BlandaCard
deriving DecidableEq, Repr

/-- Model of `serializarRestricciones()`: walk both card lists, skipping typeless
cards, and return `{duras, blandas}`. -/
def serializarRestricciones (form : RestriccionesForm) :
    List Restriccion × List RestriccionBlanda :=
  (form.duras.filterMap serializeDura, form.blandas.filterMap serializeBlanda)

/-- The two hidden inputs written by `validarRestriccionesFormulario`:
`none` models an element absent from the document, `some v` an element whose
current value is `v`. -/
structure HiddenFields where
  durasJson : Option String
  blandasJson : Option String
deriving DecidableEq, Repr

/-- Model of `validarRestriccionesFormulario()`: serialize the form; when `duras` is
empty, alert and return `false` leaving the document unchanged; otherwise
write the JSON-serialized arrays into whichever of the two hidden fields
exist (`if (durasInput) …`, `if (blandasInput) …`) and return `true`.
`stringifyDuras`/`stringifyBlandas` model the `JSON.stringify` builtin.  The
result pairs the new hidden-field state with the returned boolean; the
blocking alert fires exactly on the `false` result. -/
def validarRestriccionesFormulario
    (stringifyDuras : List Restriccion → String)
    (stringifyBlandas : List RestriccionBlanda → String)
    (form : RestriccionesForm) (fields : HiddenFields) : HiddenFields × Bool :=
  let s := serializarRestricciones form
  if s.1.length = 0 then (fields, false)
  else
    ({ durasJson := fields.durasJson.map fun _ => stringifyDuras s.1,
       blandasJson := fields.blandasJson.map fun _ => stringifyBlandas s.2 },
     true)

/-- The weight controls of one soft-constraint card: the values of its range
slider (`.restriccion-blanda-peso-range`) and its number input
(`.restriccion-blanda-peso`). -/
structure PesoControls where
  rangeValue : String
  numberValue : String
deriving DecidableEq, Repr

/-- Model of `RestriccionesBlandas.actualizarPeso(index, valor)`: write `valor` to the
number input of card `index` (no-op when there is no such card, as the
`querySelector` guard does nothing on `null`). -/
def actualizarPeso (cards : List PesoControls) (index : Nat) (valor : String) :
    List PesoControls :=
  match cards[index]? with
  | none => cards
  | some c => cards.set index { c with numberValue := valor }

/-- Model of `RestriccionesBlandas.sincronizarPeso(index, valor)`: write `valor` to
the range slider of card `index` (no-op when absent). -/
def sincronizarPeso (cards : List PesoControls) (index : Nat) (valor : String) :
    List PesoControls :=
  match cards[index]? with
  | none => cards
  | some c => cards.set index { c with rangeValue := valor }

/-- The slider's `oninput="RestriccionesBlandas.actualizarPeso(index,
this.value)"` wiring from the card template: the slider at `index` takes the
typed/dragged value `v`, then the handler runs with `this.value = v`. -/
def rangeInputEvent (cards : List PesoControls) (index : Nat) (v : String) :
    List PesoControls :=
  match cards[index]? with
  | none => cards
  | some c => actualizarPeso (cards.set index { c with rangeValue := v }) index v

/-- The number input's `onchange="RestriccionesBlandas.sincronizarPeso(index,
this.value)"` wiring: the number input at `index` takes value `v`, then the
handler runs with `this.value = v`. -/
def numberChangeEvent (cards : List PesoControls) (index : Nat) (v : String) :
    List PesoControls :=
  match cards[index]? with
  | none => cards
  | some c => sincronizarPeso (cards.set index { c with numberValue := v }) index v

/-- A poll trace has at most `max (maxAttempts - attempts) 1` events: the cap
check runs after each attempt, so one attempt always happens, and afterwards
the loop stops no later than when `attempts` reaches `maxAttempts`. -/
theorem pollLoop_length_le {α : Type} (resp : Nat → FetchResult)
    (cb : Resp → Nat → Bool × α) (maxAttempts attempts : Nat) :
    (pollLoop resp cb maxAttempts attempts).length ≤ max (maxAttempts - attempts) 1 := by
  suffices H : ∀ k attempts, maxAttempts - attempts ≤ k →
      (pollLoop resp cb maxAttempts attempts).length ≤ max (maxAttempts - attempts) 1 from
    H _ attempts le_rfl
  intro k
  induction k with
  | zero =>
    intro attempts h
    rw [pollLoop]
    split
    · simp
    · rw [if_pos (Or.inr (by omega : maxAttempts ≤ attempts + 1))]
      simp
  | succ k ih =>
    intro attempts h
    rw [pollLoop]
    split
    · simp
    · rename_i d hd
      by_cases hc : (cb d (attempts + 1)).1 = false ∨ maxAttempts ≤ attempts + 1
      · rw [if_pos hc]; simp
      · rw [if_neg hc]
        have h2 := ih (attempts + 1) (by omega)
        push_neg at hc
        simp only [List.length_cons]
        omega

/-- Every event of a poll trace that is not the last one is a callback run
that returned a truthy value, with its attempt number below the cap: the
interval is cleared immediately on a falsy callback, on cap exhaustion, and
on a fetch error, so nothing can follow such an event. -/
theorem pollLoop_nonlast {α : Type} (resp : Nat → FetchResult)
    (cb : Resp → Nat → Bool × α) (maxAttempts : Nat) :
    ∀ k attempts pre e post, maxAttempts - attempts ≤ k →
      pollLoop resp cb maxAttempts attempts = pre ++ e :: post → post ≠ [] →
      ∃ a d acts, e = .callbackRun a d true acts ∧ (cb d a).1 = true ∧ a < maxAttempts := by
  intro k
  induction k with
  | zero =>
    intro attempts pre e post h heq hpost
    rw [pollLoop] at heq
    split at heq
    · rcases pre with _ | ⟨p, pre⟩ <;> simp_all
    · rw [if_pos (Or.inr (by omega : maxAttempts ≤ attempts + 1))] at heq
      rcases pre with _ | ⟨p, pre⟩ <;> simp_all
  | succ k ih =>
    intro attempts pre e post h heq hpost
    rw [pollLoop] at heq
    split at heq
    · rcases pre with _ | ⟨p, pre⟩ <;> simp_all
    · rename_i d hd
      by_cases hc : (cb d (attempts + 1)).1 = false ∨ maxAttempts ≤ attempts + 1
      · rw [if_pos hc] at heq
        rcases pre with _ | ⟨p, pre⟩ <;> simp_all
      · rw [if_neg hc] at heq
        push_neg at hc
        have hcb : (cb d (attempts + 1)).1 = true := by
          rcases hc with ⟨h1, _⟩
          exact Bool.not_eq_false _ |>.mp h1 |>.symm ▸ rfl
        rcases pre with _ | ⟨p, pre⟩
        · simp only [List.nil_append, List.cons.injEq] at heq
          refine ⟨attempts + 1, d, (cb d (attempts + 1)).2, ?_, hcb, by omega⟩
          rw [← heq.1, hcb]
        · simp only [List.cons_append, List.cons.injEq] at heq
          exact ih (attempts + 1) pre e post (by omega) heq.2 hpost

/-- C1: when the polled endpoint answers `{estado: 'PENDIENTE'}` on the first
three attempts and `{estado: 'COMPLETADA'}` on the fourth, `monitorizarEjecucion`
invokes `onUpdate` exactly 4 times, once per response in order, invokes
`onComplete` exactly once with the terminal response, and issues exactly 4
requests (the trace has 4 events), so no request follows the terminal one. -/
theorem monitorizar_pendiente3_completada (resp : Nat → FetchResult)
    (d0 d1 d2 d3 : Resp)
    (h0 : resp 0 = .ok d0) (h1 : resp 1 = .ok d1) (h2 : resp 2 = .ok d2)
    (h3 : resp 3 = .ok d3)
    (e0 : d0.estado = "PENDIENTE") (e1 : d1.estado = "PENDIENTE")
    (e2 : d2.estado = "PENDIENTE") (e3 : d3.estado = "COMPLETADA") :
    onUpdates (monitorizarEjecucion resp) = [d0, d1, d2, d3] ∧
    onCompletes (monitorizarEjecucion resp) = [d3] ∧
    (monitorizarEjecucion resp).length = 4 := by
  have htr : monitorizarEjecucion resp =
      [.callbackRun 1 d0 true [.update d0],
       .callbackRun 2 d1 true [.update d1],
       .callbackRun 3 d2 true [.update d2],
       .callbackRun 4 d3 false [.update d3, .complete d3]] := by
    rw [monitorizarEjecucion, poll]
    rw [pollLoop, h0]
    simp only [monitorizarCallback, e0]
    simp only [String.reduceEq, or_self, reduceIte]
    norm_num
    rw [pollLoop, h1]
    simp only [monitorizarCallback, e1]
    simp only [String.reduceEq, or_self, reduceIte]
    norm_num
    rw [pollLoop, h2]
    simp only [monitorizarCallback, e2]
    simp only [String.reduceEq, or_self, reduceIte]
    norm_num
    rw [pollLoop, h3]
    simp only [monitorizarCallback, e3]
    simp only [String.reduceEq, or_self, or_false, reduceIte]
    norm_num
  rw [htr]
  simp [onUpdates, onCompletes]

/-- Witness for C1 at a concrete endpoint. -/
theorem monitorizar_pendiente3_completada_witness :
    onUpdates (monitorizarEjecucion
        (fun n => if n < 3 then .ok ⟨"PENDIENTE", ""⟩ else .ok ⟨"COMPLETADA", "fin"⟩)) =
      [⟨"PENDIENTE", ""⟩, ⟨"PENDIENTE", ""⟩, ⟨"PENDIENTE", ""⟩, ⟨"COMPLETADA", "fin"⟩] ∧
    onCompletes (monitorizarEjecucion
        (fun n => if n < 3 then .ok ⟨"PENDIENTE", ""⟩ else .ok ⟨"COMPLETADA", "fin"⟩)) =
      [⟨"COMPLETADA", "fin"⟩] ∧
    (monitorizarEjecucion
        (fun n => if n < 3 then .ok ⟨"PENDIENTE", ""⟩ else .ok ⟨"COMPLETADA", "fin"⟩)).length = 4 :=
  monitorizar_pendiente3_completada _ ⟨"PENDIENTE", ""⟩ ⟨"PENDIENTE", ""⟩
    ⟨"PENDIENTE", ""⟩ ⟨"COMPLETADA", "fin"⟩
    (by decide) (by decide) (by decide) (by decide) rfl rfl rfl rfl

/-- C2 (amended): `AjaxHelper.poll` performs at most `max maxAttempts 1`
attempts — the cap check runs only after an attempt has executed, so a cap of
`0` still yields one attempt; for every `maxAttempts ≥ 1` this is the claimed
bound `maxAttempts`.  The timer is cancelled at the first attempt whose
callback returns a falsy value: any event of the trace that is not the last
one is a callback run that returned `true`, below the cap.
`monitorizarEjecucion` instantiates `poll` with interval 5000 and cap 120, so
its polling never exceeds 120 attempts and nothing follows an attempt whose
response carried a terminal `estado`. -/
theorem poll_attempt_cap {α : Type} (resp : Nat → FetchResult)
    (cb : Resp → Nat → Bool × α) (interval maxAttempts : Nat) :
    (poll resp cb interval maxAttempts).length ≤ max maxAttempts 1 ∧
    (∀ pre e post, poll resp cb interval maxAttempts = pre ++ e :: post → post ≠ [] →
      ∃ a d acts, e = .callbackRun a d true acts ∧ (cb d a).1 = true ∧ a < maxAttempts) ∧
    (∀ respm : Nat → FetchResult, (monitorizarEjecucion respm).length ≤ 120) ∧
    (∀ (respm : Nat → FetchResult) pre a d c acts post,
      monitorizarEjecucion respm = pre ++ PollEvent.callbackRun a d c acts :: post →
      (d.estado = "COMPLETADA" ∨ d.estado = "ERROR") → post = []) := by
  refine ⟨?_, ?_, ?_, ?_⟩
  · have := pollLoop_length_le resp cb maxAttempts 0
    simpa [poll] using this
  · intro pre e post heq hpost
    exact pollLoop_nonlast resp cb maxAttempts maxAttempts 0 pre e post (by omega) heq hpost
  · intro respm
    have := pollLoop_length_le respm monitorizarCallback 120 0
    simpa [monitorizarEjecucion, poll] using this
  · intro respm pre a d c acts post heq hterm
    by_contra hpost
    obtain ⟨a', d', acts', he, hcb, _⟩ :=
      pollLoop_nonlast respm monitorizarCallback 120 120 0 pre _ post (by omega) heq hpost
    obtain ⟨rfl, rfl, rfl, rfl⟩ :
        a = a' ∧ d = d' ∧ c = true ∧ acts = acts' := by
      cases he
      exact ⟨rfl, rfl, rfl, rfl⟩
    rw [monitorizarCallback, if_pos hterm] at hcb
    exact Bool.false_ne_true hcb

/-- Witness for C2: the non-last event of a concrete two-attempt run. -/
theorem poll_attempt_cap_witness :
    ∃ a d acts,
      (PollEvent.callbackRun 1 ⟨"PENDIENTE", ""⟩ true
          [MonAction.update ⟨"PENDIENTE", ""⟩] : PollEvent (List MonAction)) =
        .callbackRun a d true acts ∧
      (monitorizarCallback d a).1 = true ∧ a < 120 :=
  (poll_attempt_cap
      (fun n => if n = 0 then .ok ⟨"PENDIENTE", ""⟩ else .ok ⟨"COMPLETADA", ""⟩)
      monitorizarCallback 5000 120).2.1
    []
    (PollEvent.callbackRun 1 ⟨"PENDIENTE", ""⟩ true [MonAction.update ⟨"PENDIENTE", ""⟩])
    [PollEvent.callbackRun 2 ⟨"COMPLETADA", ""⟩ false
      [MonAction.update ⟨"COMPLETADA", ""⟩, MonAction.complete ⟨"COMPLETADA", ""⟩]]
    (by simp [poll, pollLoop, monitorizarCallback])
    (by simp)

/-- Counterexample to C2 as stated: with `maxAttempts = 0` the first timer
fire still performs one attempt (the cap is only checked after the attempt),
so the number of attempts is 1, not at most 0. -/
theorem poll_attempt_cap_counterexample :
    (poll (fun _ => .ok ⟨"PENDIENTE", ""⟩)
        (fun d _ => (true, [MonAction.update d])) 5000 0).length = 1 ∧
    ¬ (poll (fun _ => .ok ⟨"PENDIENTE", ""⟩)
        (fun d _ => (true, [MonAction.update d])) 5000 0).length ≤ 0 := by
  constructor
  · rw [poll, pollLoop]
    norm_num
  · rw [poll, pollLoop]
    norm_num

/-- C7: a rejected fetch is terminal for `AjaxHelper.poll`.  The attempt whose
fetch fails contributes exactly one `fetchError` event: the callback is not
invoked for it, the interval is cleared, no further event (hence no further
request) follows, and the loop still returns a trace (the error is swallowed
after logging, never re-thrown).  Moreover a `fetchError` event is always the
last event of any full poll trace. -/
theorem poll_fetch_error_terminal {α : Type} (resp : Nat → FetchResult)
    (cb : Resp → Nat → Bool × α) (maxAttempts attempts : Nat)
    (h : resp attempts = .err) :
    pollLoop resp cb maxAttempts attempts = [.fetchError (attempts + 1)] ∧
    ∀ interval pre a post, poll resp cb interval maxAttempts = pre ++ .fetchError a :: post →
      post = [] := by
  constructor
  · rw [pollLoop, h]
  · intro interval pre a post heq
    by_contra hpost
    obtain ⟨a', d', acts', he, -, -⟩ :=
      pollLoop_nonlast resp cb maxAttempts maxAttempts 0 pre _ post (by omega) heq hpost
    exact PollEvent.noConfusion he

/-- Witness for C7: a first-attempt fetch failure yields the one-event trace. -/
theorem poll_fetch_error_terminal_witness :
    pollLoop (fun _ => .err) monitorizarCallback 120 0 = [.fetchError 1] ∧
    ∀ interval pre a post,
      poll (fun _ => .err) monitorizarCallback interval 120 = pre ++ .fetchError a :: post →
      post = [] :=
  poll_fetch_error_terminal (fun _ => .err) monitorizarCallback 120 0 rfl

/-- The cookie-entry match test of `getCookie` is exactly "starts with
`name + '='`": taking `name.length + 1` characters and comparing with
`name ++ ['=']` is the prefix test for a pattern of that length. -/
theorem startsWith_name_eq (name c : JStr) :
    startsWith (name ++ ['=']) c = decide (c.take (name.length + 1) = name ++ ['=']) := by
  simp [startsWith]

/-- The scan loop of `getCookie` returns the decoded remainder of the first
entry starting with `name ++ ['=']`, and `none` when no entry matches. -/
theorem getCookieLoop_eq_find (dec : JStr → JStr) (name : JStr) (entries : List JStr) :
    getCookieLoop dec name entries =
      ((entries.map trimJS).find? (fun c => startsWith (name ++ ['=']) c)).map
        (fun c => dec (c.drop (name.length + 1))) := by
  induction entries with
  | nil => rfl
  | cons c rest ih =>
    rw [getCookieLoop]
    by_cases h : (trimJS c).take (name.length + 1) = name ++ ['=']
    · rw [if_pos h, List.map_cons,
        List.find?_cons_of_pos _ (by rw [startsWith_name_eq]; exact decide_eq_true h)]
      rfl
    · rw [if_neg h, List.map_cons,
        List.find?_cons_of_neg _ (by rw [startsWith_name_eq]; simpa using h)]
      exact ih

/-- C10: `AjaxHelper.getCookie` returns the decoded value of the first cookie
entry (in `document.cookie` order, each entry trimmed) that starts exactly
with `name + '='`, where the value is the rest of the entry passed through
`dec` (the model of the `decodeURIComponent` builtin); it returns `null` when
the cookie string is empty or no entry matches (both covered by the `find?`
characterization, whose result is `none` in those cases).  A cookie whose
name has `name` as a proper prefix never passes the match test (last
conjunct: an entry `name ++ w ++ "=" ++ v` with the extension `w` nonempty
and free of `'='` never starts with `name ++ "="`). -/
theorem getCookie_first_match (dec : JStr → JStr) (cookieStr name : JStr) :
    getCookie dec cookieStr name =
      (((splitSemicolon cookieStr).map trimJS).find?
          (fun c => startsWith (name ++ ['=']) c)).map
        (fun c => dec (c.drop (name.length + 1))) ∧
    (cookieStr = [] → getCookie dec cookieStr name = none) ∧
    (∀ (c : Char) (w v : JStr), '=' ∉ c :: w →
      startsWith (name ++ ['=']) (name ++ (c :: w) ++ '=' :: v) = false) := by
  refine ⟨?_, ?_, ?_⟩
  · rw [getCookie]
    by_cases h : cookieStr = []
    · subst h
      simp [splitCharAux, splitChar, splitSemicolon, trimJS, startsWith]
    · rw [if_pos h]
      exact getCookieLoop_eq_find dec name (splitSemicolon cookieStr)
  · intro h
    rw [getCookie, h]
    simp
  · intro c w v hne
    simp only [startsWith_name_eq, decide_eq_false_iff_not]
    intro h
    rw [List.append_assoc, List.take_append_eq_append_take,
      List.take_of_length_le (by omega), Nat.add_sub_cancel_left,
      List.cons_append, List.take_succ_cons] at h
    have h2 := List.append_cancel_left h
    simp only [List.cons.injEq] at h2
    exact hne (h2.1 ▸ List.mem_cons_self c w)

/-- Witness for C10: the characterization evaluated on a concrete cookie
string where an entry whose name properly extends `csrftoken` precedes the
exact match. -/
theorem getCookie_first_match_witness :
    getCookie (fun s => s) [] "csrftoken".data = none ∧
    startsWith ("csrftoken".data ++ ['='])
      ("csrftoken".data ++ ('X' :: []) ++ '=' :: "1".data) = false :=
  ⟨(getCookie_first_match (fun s => s) [] "csrftoken".data).2.1 rfl,
   (getCookie_first_match (fun s => s) [] "csrftoken".data).2.2 'X' [] "1".data
      (by decide)⟩

/-- C5 (amended): `getCSRFToken` tries the form field, the meta tag and the
`csrftoken` cookie in that fixed order, but — per the JS `||` chain — an
earlier source is skipped not only when it is missing but also when it yields
the falsy empty string; the cookie lookup's result (possibly `null`, possibly
empty) is returned as-is in final position.  In particular it returns `null`
when none of the three sources exists. -/
theorem getCSRFToken_priority (dec : JStr → JStr) (dom : CsrfDom) :
    (∀ v, dom.formFieldVal = some v → v ≠ [] → getCSRFToken dec dom = some v) ∧
    (∀ v, (dom.formFieldVal = none ∨ dom.formFieldVal = some []) →
      dom.metaContent = some v → v ≠ [] → getCSRFToken dec dom = some v) ∧
    ((dom.formFieldVal = none ∨ dom.formFieldVal = some []) →
      (dom.metaContent = none ∨ dom.metaContent = some []) →
      getCSRFToken dec dom = getCookie dec dom.cookieStr csrftokenName) ∧
    (dom.formFieldVal = none → dom.metaContent = none →
      getCookie dec dom.cookieStr csrftokenName = none →
      getCSRFToken dec dom = none) := by
  refine ⟨?_, ?_, ?_, ?_⟩
  · intro v hv hne
    rw [getCSRFToken, hv, jsOrStr, if_neg hne]
  · intro v hf hv hne
    rw [getCSRFToken, hv]
    rcases hf with h | h <;>
      simp [h, jsOrStr, hne]
  · intro hf hm
    rw [getCSRFToken]
    rcases hf with h | h <;> rcases hm with h2 | h2 <;>
      simp [h, h2, jsOrStr]
  · intro hf hm hc
    rw [getCSRFToken, hf, hm, hc]
    rfl

/-- Witness for C5's amended theorem: the empty-form-field fallthrough and
the all-sources-missing `null` case, concretely. -/
theorem getCSRFToken_priority_witness :
    getCSRFToken (fun s => s) ⟨some [], some "abc".data, []⟩ = some "abc".data ∧
    getCSRFToken (fun s => s) ⟨none, none, []⟩ = none :=
  ⟨(getCSRFToken_priority (fun s => s) ⟨some [], some "abc".data, []⟩).2.1
      "abc".data (Or.inr rfl) rfl (by decide),
   (getCSRFToken_priority (fun s => s) ⟨none, none, []⟩).2.2.2 rfl rfl rfl⟩

/-- Counterexample to C5 as stated: a document whose `csrfmiddlewaretoken`
form field exists but holds the empty string, while the meta tag holds
`"abc"`.  The claimed priority order would resolve source (1) and return the
form field's value `""`; the code's `||` chain skips the falsy empty string
and returns the meta content `"abc"` instead. -/
theorem getCSRFToken_priority_counterexample :
    getCSRFToken (fun s => s) ⟨some [], some "abc".data, []⟩ = some "abc".data ∧
    (some "abc".data : Option JStr) ≠ some [] := by
  constructor
  · rfl
  · decide

/-- C3 (amended): the client performs no clamping of soft-constraint weights.
Every `peso` in the serialized `blandas` array is exactly `parseFloat` of the
raw value of the corresponding card's number input, passed through unchanged,
so values outside `[0, 10]` reach the payload; the `[0, 10]` range is only
declared via the HTML `min`/`max` attributes of the weight controls, which do
not constrain the serialized value. -/
theorem serializar_peso_unclamped (form : RestriccionesForm) :
    ∀ r ∈ (serializarRestricciones form).2, ∃ c ∈ form.blandas,
      r.peso = parseFloat c.pesoValue := by
  intro r hr
  rw [serializarRestricciones] at hr
  simp only [List.mem_filterMap] at hr
  obtain ⟨c, hc, hser⟩ := hr
  refine ⟨c, hc, ?_⟩
  rcases h : c.tipoSelect with _ | t
  · simp only [serializeBlanda, h] at hser
    exact Option.noConfusion hser
  · simp only [serializeBlanda, h] at hser
    by_cases ht : t = ""
    · rw [if_pos ht] at hser
      exact Option.noConfusion hser
    · rw [if_neg ht] at hser
      cases hser
      rfl

/-- Witness for C3's amended theorem: the weight `"99"` survives
serialization unclamped. -/
theorem serializar_peso_unclamped_witness :
    ∃ c ∈ (RestriccionesForm.mk [] [⟨some "preferencias_turno", true, "99"⟩]).blandas,
      (RestriccionBlanda.mk "preferencias_turno" true (some 99) []).peso =
        parseFloat c.pesoValue :=
  serializar_peso_unclamped ⟨[], [⟨some "preferencias_turno", true, "99"⟩]⟩
    ⟨"preferencias_turno", true, some 99, []⟩ (by decide)

/-- Counterexample to C3 as stated: a soft-constraint card whose weight input
holds `"99"`.  Nothing clamps it: the serialized entry carries `peso = 99`,
a weight outside `[0, 10]` in the `blandas` array. -/
theorem serializar_peso_clamp_counterexample :
    (serializarRestricciones ⟨[], [⟨some "preferencias_turno", true, "99"⟩]⟩).2 =
      [⟨"preferencias_turno", true, some 99, []⟩] ∧
    ∃ r ∈ (serializarRestricciones ⟨[], [⟨some "preferencias_turno", true, "99"⟩]⟩).2,
      ∃ q, r.peso = some q ∧ ¬ (0 ≤ q ∧ q ≤ 10) := by
  refine ⟨by decide, ⟨"preferencias_turno", true, some 99, []⟩, by decide, 99, rfl, ?_⟩
  intro ⟨_, h⟩
  norm_num at h

/-- C4: `validarRestriccionesFormulario` returns `false` — surfacing the
blocking alert — and leaves both hidden fields untouched when the serialized
form contains zero hard constraints; when at least one hard constraint is
present (and the hidden fields exist in the document, as the form template
provides) it writes the JSON-serialized arrays into them and returns `true`. -/
theorem validar_requires_dura (sd : List Restriccion → String)
    (sb : List RestriccionBlanda → String) (form : RestriccionesForm)
    (fields : HiddenFields) :
    ((serializarRestricciones form).1 = [] →
      validarRestriccionesFormulario sd sb form fields = (fields, false)) ∧
    (∀ dj bj, (serializarRestricciones form).1 ≠ [] →
      fields.durasJson = some dj → fields.blandasJson = some bj →
      validarRestriccionesFormulario sd sb form fields =
        (⟨some (sd (serializarRestricciones form).1),
          some (sb (serializarRestricciones form).2)⟩, true)) := by
  constructor
  · intro h
    rw [validarRestriccionesFormulario]
    simp [h]
  · intro dj bj hne hd hb
    rw [validarRestriccionesFormulario]
    simp [List.length_eq_zero, hne, hd, hb]

/-- Witness for C4: both branches at concrete forms — the empty form fails
without touching the fields, a one-hard-constraint form populates both. -/
theorem validar_requires_dura_witness :
    validarRestriccionesFormulario (fun _ => "D") (fun _ => "B")
      ⟨[], []⟩ ⟨some "", some ""⟩ = (⟨some "", some ""⟩, false) ∧
    validarRestriccionesFormulario (fun _ => "D") (fun _ => "B")
      ⟨[⟨some "un_turno_por_dia", true, []⟩], []⟩ ⟨some "", some ""⟩ =
      (⟨some "D", some "B"⟩, true) :=
  ⟨(validar_requires_dura (fun _ => "D") (fun _ => "B") ⟨[], []⟩
      ⟨some "", some ""⟩).1 rfl,
   (validar_requires_dura (fun _ => "D") (fun _ => "B")
      ⟨[⟨some "un_turno_por_dia", true, []⟩], []⟩ ⟨some "", some ""⟩).2
      "" "" (by decide) rfl rfl⟩

/-- C6: a form with exactly one hard-constraint card — type selected,
checkbox checked — and zero soft-constraint cards serializes to
`{duras: [r], blandas: []}` where `r.nombre` is the selected identifier,
`r.activa = true` and `r.parametros` is the mapping collected from the card's
parameter inputs (each `number` input's value through `parseFloat`, other
values as raw strings, keyed by the last underscore-segment of the input's
`name` attribute). -/
theorem serializar_single_dura (t : String) (ht : t ≠ "") (inputs : List Input) :
    serializarRestricciones ⟨[⟨some t, true, inputs⟩], []⟩ =
      ([{ nombre := t, activa := true, parametros := serializeDuraParams inputs }], []) := by
  simp [serializarRestricciones, serializeDura, ht]

set_option maxRecDepth 4096 in
/-- Witness for C6: a `descanso_minimo` card with its `horas_descanso`
parameter input (note the collected key is the last underscore-segment
`"descanso"`). -/
theorem serializar_single_dura_witness :
    serializarRestricciones ⟨[⟨some "descanso_minimo", true,
        [⟨"restriccion_dura_param_0_horas_descanso", "number", "12"⟩]⟩], []⟩ =
      ([{ nombre := "descanso_minimo", activa := true,
          parametros := [("descanso", .num (some 12))] }], []) := by
  rw [serializar_single_dura "descanso_minimo" (by decide)
    [⟨"restriccion_dura_param_0_horas_descanso", "number", "12"⟩]]
  decide

/-- C9: a constraint card whose type select is missing or holds the empty
value contributes no entry to the payload: deleting such a card — hard or
soft — from the form leaves `serializarRestricciones` unchanged, so a card
added but never assigned a type never reaches the submitted arrays. -/
theorem serializar_excludes_typeless (c : DuraCard) (b : BlandaCard)
    (hc : c.tipoSelect = none ∨ c.tipoSelect = some "")
    (hb : b.tipoSelect = none ∨ b.tipoSelect = some "") :
    (∀ xs ys bl, serializarRestricciones ⟨xs ++ c :: ys, bl⟩ =
      serializarRestricciones ⟨xs ++ ys, bl⟩) ∧
    (∀ ds xs ys, serializarRestricciones ⟨ds, xs ++ b :: ys⟩ =
      serializarRestricciones ⟨ds, xs ++ ys⟩) := by
  have hcz : serializeDura c = none := by
    rcases hc with h | h <;> simp [serializeDura, h]
  have hbz : serializeBlanda b = none := by
    rcases hb with h | h <;> simp [serializeBlanda, h]
  constructor
  · intro xs ys bl
    simp [serializarRestricciones, List.filterMap_append, hcz]
  · intro ds xs ys
    simp [serializarRestricciones, List.filterMap_append, hbz]

/-- Witness for C9: an empty-typed hard card and a select-less soft card
vanish from a concrete form's serialization. -/
theorem serializar_excludes_typeless_witness :
    serializarRestricciones ⟨[⟨some "", true, []⟩, ⟨some "un_turno_por_dia", true, []⟩],
        [⟨none, true, "1.0"⟩]⟩ =
      serializarRestricciones ⟨[⟨some "un_turno_por_dia", true, []⟩], [⟨none, true, "1.0"⟩]⟩ :=
  (serializar_excludes_typeless ⟨some "", true, []⟩ ⟨none, true, "1.0"⟩
      (Or.inr rfl) (Or.inl rfl)).1 [] [⟨some "un_turno_por_dia", true, []⟩]
    [⟨none, true, "1.0"⟩]

/-- C8: the weight slider and the weight number input of soft-constraint card
`index` stay synchronized.  `actualizarPeso(index, v)` writes `v` to the
number input and `sincronizarPeso(index, v)` writes `v` to the slider (first
two conjuncts); since the template wires `actualizarPeso(index, this.value)`
to the slider's `input` event and `sincronizarPeso(index, this.value)` to the
number input's `change` event, after either user edit to value `v` both
controls hold `v` (last two conjuncts). -/
theorem peso_controls_sync (cards : List PesoControls) (index : Nat) (v : String)
    (c : PesoControls) (h : cards[index]? = some c) :
    (actualizarPeso cards index v)[index]? = some { c with numberValue := v } ∧
    (sincronizarPeso cards index v)[index]? = some { c with rangeValue := v } ∧
    (rangeInputEvent cards index v)[index]? = some ⟨v, v⟩ ∧
    (numberChangeEvent cards index v)[index]? = some ⟨v, v⟩ := by
  have hlt : index < cards.length := by
    by_contra hge
    rw [List.getElem?_eq_none (by omega)] at h
    cases h
  have hset : ∀ c' : PesoControls, (cards.set index c')[index]? = some c' := fun c' =>
    List.getElem?_set_self (by omega)
  have hset2 : ∀ c' c'' : PesoControls,
      ((cards.set index c').set index c'')[index]? = some c'' := fun c' c'' =>
    List.getElem?_set_self (by simpa using hlt)
  refine ⟨?_, ?_, ?_, ?_⟩
  · simp only [actualizarPeso, h]
    exact hset _
  · simp only [sincronizarPeso, h]
    exact hset _
  · simp only [rangeInputEvent, h, actualizarPeso, hset _]
    exact hset2 _ _
  · simp only [numberChangeEvent, h, sincronizarPeso, hset _]
    exact hset2 _ _

/-- Witness for C8 at the spec's example value `7.5`: either edit leaves both
controls at `"7.5"`. -/
theorem peso_controls_sync_witness :
    (actualizarPeso [⟨"1.0", "1.0"⟩] 0 "7.5")[0]? = some ⟨"1.0", "7.5"⟩ ∧
    (sincronizarPeso [⟨"1.0", "1.0"⟩] 0 "7.5")[0]? = some ⟨"7.5", "1.0"⟩ ∧
    (rangeInputEvent [⟨"1.0", "1.0"⟩] 0 "7.5")[0]? = some ⟨"7.5", "7.5"⟩ ∧
    (numberChangeEvent [⟨"1.0", "1.0"⟩] 0 "7.5")[0]? = some ⟨"7.5", "7.5"⟩ :=
  peso_controls_sync [⟨"1.0", "1.0"⟩] 0 "7.5" ⟨"1.0", "1.0"⟩ rfl

end Turnos
